import Mathlib

/-!
Shallow embedding of `gddo-server/pkgsite.go` (the pkg.go.dev tee /
redirect logic of godoc.org) and proofs about it.

Strings are Lean `String`s; the byte-level Go operations
(`filepath.Ext`, `strings.HasPrefix`, `url.QueryEscape`, …) are
modelled on the underlying `List Char`, which coincides with Go's
byte strings on ASCII data and with UTF-8 encoding where percent
escaping needs the bytes.
-/

namespace Gddo

/-! ### Small string primitives (strings.HasPrefix / Contains / HasSuffix) -/

/-- Models Go `strings.HasPrefix s pre`. -/
def strHasPre (s pre : String) : Bool := pre.data.isPrefixOf s.data

/-- Models Go `strings.HasSuffix s suf`. -/
def strHasSuf (s suf : String) : Bool := suf.data.isSuffixOf s.data

/-- Models Go `strings.Contains s sub`. -/
def strContains (s sub : String) : Bool := decide (sub.data <:+: s.data)

/-! ### `filepath.Ext`

Go source (`path/filepath`):
```
for i := len(path) - 1; i >= 0 && !os.IsPathSeparator(path[i]); i-- {
    if path[i] == '.' { return path[i:] }
}
return ""
```
We scan the reversed character list; the returned extension is
rebuilt in source order. -/

/-- The loop of `filepath.Ext` on the reversed character list.
Returns the extension (in source order): scanning from the end,
stop with `[]` at a path separator, return the suffix from a `.`. -/
def extRev : List Char → List Char
  | [] => []
  | c :: rest =>
    if c = '/' then []
    else if c = '.' then ['.']
    else
      match extRev rest with
      | [] => []
      | e => e ++ [c]

/-- Models Go `filepath.Ext` (on a Unix separator). -/
def filepathExt (s : String) : String := ⟨extRev s.data.reverse⟩

/-! ### The tee filter (`shouldTeeRequest`) -/

/-- Models the map `doNotTeeURLsToPkgGoDev`. -/
def doNotTeeURLsToPkgGoDev : List String := ["/-/bot", "/-/refresh"]

/-- Models the map `doNotTeeExtsToPkgGoDev`. -/
def doNotTeeExtsToPkgGoDev : List String := [".css", ".html", ".js", ".txt", ".xml"]

/-- Models `shouldTeeRequest(u string) bool`. -/
def shouldTeeRequest (u : String) : Bool :=
  if strHasPre u "/_ah/" then false
  else if doNotTeeExtsToPkgGoDev.contains (filepathExt u) then false
  else if doNotTeeURLsToPkgGoDev.contains u then false
  else true

/-! ### Claim-side description of the extension: "the extension of the
path's final segment", computed independently of the scanning loop. -/

/-- The final `/`-separated segment of a character list. -/
def segLast (l : List Char) : List Char :=
  (l.reverse.takeWhile (fun c => c ≠ '/')).reverse

/-- The suffix of a segment from its final dot (inclusive); empty if
the segment has no dot. -/
def dotExt (seg : List Char) : List Char :=
  if '.' ∈ seg then '.' :: (seg.reverse.takeWhile (fun c => c ≠ '.')).reverse
  else []

/-- The extension of the final path segment, as the spec words it. -/
def lastSegExt (p : String) : String := ⟨dotExt (segLast p.data)⟩

/-! ### `url.Values` (Go `map[string][]string`) with Get/Set/Add/Encode

`Encode` sorts by key, so the association-list order is immaterial. -/

/-- Models Go `url.Values`. -/
abbrev Values := List (String × List String)

/-- Models `url.Values.Get`: first value of the key, `""` if absent. -/
def valuesGet : Values → String → String
  | [], _ => ""
  | (k', vs) :: rest, k => if k' = k then vs.headD "" else valuesGet rest k

/-- Models `url.Values.Set`: replace the key's values with the one value. -/
def valuesSet : Values → String → String → Values
  | [], k, v => [(k, [v])]
  | (k', vs) :: rest, k, v =>
    if k' = k then (k, [v]) :: rest else (k', vs) :: valuesSet rest k v

/-- Models `url.Values.Add`: append the value to the key's values. -/
def valuesAdd : Values → String → String → Values
  | [], k, v => [(k, [v])]
  | (k', vs) :: rest, k, v =>
    if k' = k then (k', vs ++ [v]) :: rest else (k', vs) :: valuesAdd rest k v

/-- Models the Go map-membership test `_, ok := m[k]`. -/
def valuesHas (q : Values) (k : String) : Bool := q.any (fun p => p.1 == k)

/-! ### `url.QueryEscape` (mode `encodeQueryComponent`) -/

/-- One digit of Go's `upperhex = "0123456789ABCDEF"` table. -/
def hexDigit (n : Nat) : Char :=
  if n < 10 then Char.ofNat ('0'.toNat + n) else Char.ofNat ('A'.toNat + n - 10)

/-- UTF-8 bytes of a character (Go strings are UTF-8 byte strings). -/
def utf8Bytes (c : Char) : List Nat :=
  if c.toNat < 0x80 then [c.toNat]
  else if c.toNat < 0x800 then [0xC0 + c.toNat / 0x40, 0x80 + c.toNat % 0x40]
  else if c.toNat < 0x10000 then
    [0xE0 + c.toNat / 0x1000, 0x80 + c.toNat / 0x40 % 0x40, 0x80 + c.toNat % 0x40]
  else
    [0xF0 + c.toNat / 0x40000, 0x80 + c.toNat / 0x1000 % 0x40,
      0x80 + c.toNat / 0x40 % 0x40, 0x80 + c.toNat % 0x40]

/-- The characters `url.shouldEscape(c, encodeQueryComponent)` leaves
alone: ASCII alphanumerics and `-._~`. -/
def isUnreserved (c : Char) : Bool :=
  (decide ('A' ≤ c) && decide (c ≤ 'Z')) || (decide ('a' ≤ c) && decide (c ≤ 'z')) ||
    (decide ('0' ≤ c) && decide (c ≤ '9')) ||
    c == '-' || c == '_' || c == '.' || c == '~'

/-- `url.QueryEscape` on one character: keep unreserved, space becomes
`+`, everything else percent-encodes its UTF-8 bytes. -/
def queryEscapeChar (c : Char) : List Char :=
  if isUnreserved c then [c]
  else if c = ' ' then ['+']
  else ((utf8Bytes c).map (fun b => ['%', hexDigit (b / 16), hexDigit (b % 16)])).flatten

/-- Models `url.QueryEscape`. -/
def queryEscape (s : String) : String := ⟨(s.data.map queryEscapeChar).flatten⟩

/-! ### `url.Values.Encode` -/

/-- Byte-wise (here: code-point-wise; identical on ASCII) string order
used by `sort.Strings`. -/
def charListLe : List Char → List Char → Bool
  | [], _ => true
  | _ :: _, [] => false
  | a :: as, b :: bs => if a = b then charListLe as bs else decide (a < b)

/-- Key comparison for the `Encode` sort. -/
def keyLe (a b : String) : Bool := charListLe a.data b.data

/-- Insertion step of the key sort. -/
def insertSorted (p : String × List String) : Values → Values
  | [] => [p]
  | q :: rest => if keyLe p.1 q.1 then p :: q :: rest else q :: insertSorted p rest

/-- Models the `sort.Strings(keys)` step of `Values.Encode`. -/
def sortByKey : Values → Values
  | [] => []
  | p :: rest => insertSorted p (sortByKey rest)

/-- `k=v` pairs joined with `&`, as `Encode`'s string builder emits. -/
def ampJoin : List String → String
  | [] => ""
  | [x] => x
  | x :: rest => x ++ "&" ++ ampJoin rest

/-- Models `url.Values.Encode`: keys sorted, each key and value
percent-escaped, `k=v` pairs joined with `&`. -/
def valuesEncode (q : Values) : String :=
  ampJoin (((sortByKey q).map
    (fun p => p.2.map (fun v => queryEscape p.1 ++ "=" ++ queryEscape v))).flatten)

/-! ### URL records and the destination mapping `pkgGoDevURL` -/

/-- The fields of a parsed `*url.URL` that this code reads. `query`
models `u.Query()`, i.e. the parsed form of `rawQuery`. -/
structure URLRec where
  host : String
  path : String
  rawQuery : String
  query : Values
deriving DecidableEq

/-- A `url.URL` literal as built by this code. -/
structure OutURL where
  scheme : String
  host : String
  path : String
  rawQuery : String
deriving DecidableEq

/-- Models the constant `pkgGoDevHost`. -/
def pkgGoDevHost : String := "pkg.go.dev"

/-- Models `pkgGoDevURL(godocURL *url.URL) *url.URL`. The Go `switch`
on `godocURL.Path` is the chain of equality tests. -/
def pkgGoDevURL (godocURL : URLRec) : OutURL :=
  let q : Values := [("utm_source", ["godoc"])]
  if strContains godocURL.path "/vendor/" || strHasSuf godocURL.path "/vendor" then
    { scheme := "https", host := pkgGoDevHost, path := "/", rawQuery := valuesEncode q }
  else if godocURL.path = "/-/go" then
    { scheme := "https", host := pkgGoDevHost, path := "/std",
      rawQuery := valuesEncode (valuesAdd q "tab" "packages") }
  else if godocURL.path = "/-/about" then
    { scheme := "https", host := pkgGoDevHost, path := "/about",
      rawQuery := valuesEncode q }
  else if godocURL.path = "/" then
    if valuesGet godocURL.query "q" ≠ "" then
      { scheme := "https", host := pkgGoDevHost, path := "/search",
        rawQuery := valuesEncode (valuesSet q "q" (valuesGet godocURL.query "q")) }
    else
      { scheme := "https", host := pkgGoDevHost, path := "/",
        rawQuery := valuesEncode q }
  else if godocURL.path = "/-/subrepo" then
    { scheme := "https", host := pkgGoDevHost, path := "/search",
      rawQuery := valuesEncode (valuesSet q "q" "golang.org/x") }
  else
    { scheme := "https", host := pkgGoDevHost, path := godocURL.path,
      rawQuery := valuesEncode
        (if valuesHas godocURL.query "imports" then valuesSet q "tab" "imports"
         else if valuesHas godocURL.query "importers" then valuesSet q "tab" "importedby"
         else valuesSet q "tab" "doc") }

/-! ### Query-parameter components of a raw query string -/

/-- Split a character list at `&` (the query-parameter separator). -/
def splitOnAmp : List Char → List (List Char)
  | [] => [[]]
  | c :: rest =>
    if c = '&' then [] :: splitOnAmp rest
    else
      match splitOnAmp rest with
      | [] => [[c]]
      | g :: gs => (c :: g) :: gs

/-- The `k=v` components of a raw query string. -/
def queryParams (raw : String) : List String :=
  (splitOnAmp raw.data).map (fun l => String.mk l)

/-! ### Requests, cookies, and the redirect predicate -/

/-- Models the constant `pkgGoDevRedirectCookie`. -/
def pkgGoDevRedirectCookie : String := "pkggodev-redirect"

/-- Models the constant `pkgGoDevRedirectParam`. -/
def pkgGoDevRedirectParam : String := "redirect"

/-- Models the constant `pkgGoDevRedirectOn`. -/
def pkgGoDevRedirectOn : String := "on"

/-- Models the constant `pkgGoDevRedirectOff`. -/
def pkgGoDevRedirectOff : String := "off"

/-- The fields of an `*http.Request` that this code reads: the parsed
URL, the transport-level `Host`, and the `Cookie`-header pairs in
order. (Other headers are never read by the modelled functions, the
`Header` field of the event only being copied through.) -/
structure Request where
  url : URLRec
  host : String
  cookies : List (String × String)
deriving DecidableEq

/-- Models `req.FormValue(key)` on these GET requests: the first value
of the query parameter, `""` if absent. -/
def formValue (r : Request) (key : String) : String := valuesGet r.url.query key

/-- Models `req.Cookie(name)`: the first cookie of that name, `none`
standing for the `http.ErrNoCookie` error. -/
def reqCookie (r : Request) (name : String) : Option String :=
  (r.cookies.find? (fun p => p.1 == name)).map (fun p => p.2)

/-- Models `userReturningFromPkgGoDev`. -/
def userReturningFromPkgGoDev (r : Request) : Bool :=
  formValue r "utm_source" == "backtogodoc"

/-- Models `shouldRedirectToPkgGoDev`. -/
def shouldRedirectToPkgGoDev (r : Request) : Bool :=
  if strHasPre r.url.host "api" then false
  else
    let redirectParam := formValue r pkgGoDevRedirectParam
    if redirectParam == pkgGoDevRedirectOn || redirectParam == pkgGoDevRedirectOff then
      redirectParam == pkgGoDevRedirectOn
    else
      match reqCookie r pkgGoDevRedirectCookie with
      | some v => v == pkgGoDevRedirectOn
      | none => false

/-! ### The analytics event (`newGDDOEvent`) -/

/-- Models `gddoEvent` (the `URL` field kept structured as the
`targetURL` it serializes; the copied-through `Header` omitted). -/
structure GddoEvent where
  host : String
  path : String
  status : Int
  url : OutURL
  latency : Nat
  isRobot : Bool
  usePkgGoDev : Bool
deriving DecidableEq

/-- Models `newGDDOEvent`. -/
def newGDDOEvent (r : Request) (latency : Nat) (isRobot : Bool) (status : Int) :
    GddoEvent :=
  let targetURL : OutURL :=
    { scheme := "https", host := r.url.host, path := r.url.path,
      rawQuery := r.url.rawQuery }
  let targetURL :=
    if targetURL.host = "" ∧ r.host ≠ "" then { targetURL with host := r.host }
    else targetURL
  { host := targetURL.host, path := r.url.path, status := status, url := targetURL,
    latency := latency, isRobot := isRobot,
    usePkgGoDev := shouldRedirectToPkgGoDev r }

/-! ### The redirect handler (`pkgGoDevRedirectHandler`) -/

/-- A `Set-Cookie` issued by the handler. `maxAge = 0` is the Go zero
value: no `Max-Age` attribute, hence no expiry. -/
structure SetCookieRec where
  name : String
  value : String
  path : String
  maxAge : Int
deriving DecidableEq

/-- What the wrapped handler observably does with a request: pass it
on to the inner handler `f`, or 302-redirect to a destination. -/
inductive HandlerAction where
  | passthrough : HandlerAction
  | redirectTo : OutURL → HandlerAction
deriving DecidableEq

/-- The response-relevant outcome of one call of the closure returned
by `pkgGoDevRedirectHandler`: the cookies set, then the action. -/
structure HandlerOutcome where
  cookies : List SetCookieRec
  action : HandlerAction
deriving DecidableEq

/-- Models the closure returned by `pkgGoDevRedirectHandler f`. -/
def pkgGoDevRedirectStep (r : Request) : HandlerOutcome :=
  if userReturningFromPkgGoDev r then { cookies := [], action := .passthrough }
  else
    let redirectParam := formValue r pkgGoDevRedirectParam
    let cookies : List SetCookieRec :=
      (if redirectParam == pkgGoDevRedirectOn then
        [{ name := pkgGoDevRedirectCookie, value := redirectParam, path := "/",
           maxAge := 0 }]
      else []) ++
      (if redirectParam == pkgGoDevRedirectOff then
        [{ name := pkgGoDevRedirectCookie, value := "", path := "/", maxAge := -1 }]
      else [])
    if !shouldRedirectToPkgGoDev r then { cookies := cookies, action := .passthrough }
    else { cookies := cookies, action := .redirectTo (pkgGoDevURL r.url) }

/-! #### `filepathExt` computes the final-segment extension -/

theorem extRev_eq (r : List Char) :
    extRev r =
      if '.' ∈ r.takeWhile (fun c => c ≠ '/')
      then '.' :: ((r.takeWhile (fun c => c ≠ '/')).takeWhile (fun c => c ≠ '.')).reverse
      else [] := by
  induction r with
  | nil => rfl
  | cons c rest ih =>
    by_cases hsl : c = '/'
    · subst hsl
      simp [extRev]
    · by_cases hdot : c = '.'
      · subst hdot
        simp [extRev]
      · simp only [extRev, if_neg hsl, if_neg hdot, ih]
        have h1 : (c :: rest).takeWhile (fun c => c ≠ '/') =
            c :: rest.takeWhile (fun c => c ≠ '/') := by
          simp [List.takeWhile_cons, hsl]
        rw [h1]
        by_cases hc : ('.' : Char) ∈ rest.takeWhile (fun c => c ≠ '/')
        · have hmem : ('.' : Char) ∈ c :: rest.takeWhile (fun c => c ≠ '/') :=
            List.mem_cons_of_mem _ hc
          rw [if_pos hc, if_pos hmem]
          have h3 : (c :: rest.takeWhile (fun c => c ≠ '/')).takeWhile
              (fun c => c ≠ '.') =
              c :: (rest.takeWhile (fun c => c ≠ '/')).takeWhile (fun c => c ≠ '.') := by
            simp [List.takeWhile_cons, hdot]
          rw [h3]
          simp
        · have hmem : ('.' : Char) ∉ c :: rest.takeWhile (fun c => c ≠ '/') := by
            intro h
            rcases List.mem_cons.mp h with h | h
            · exact hdot h.symm
            · exact hc h
          rw [if_neg hc, if_neg hmem]

theorem filepathExt_eq_lastSegExt (p : String) : filepathExt p = lastSegExt p := by
  unfold filepathExt lastSegExt
  congr 1
  rw [extRev_eq]
  unfold dotExt segLast
  simp [List.mem_reverse]

/-- C1: `shouldTeeRequest p` is `false` exactly when `p` starts with
`"/_ah/"`, or the extension of `p`'s final segment is in the asset
denylist, or `p` is one of the two operational paths; and the sampled
path `/github.com/foo/bar` is teed. -/
theorem shouldTeeRequest_false_iff :
    (∀ p : String,
      shouldTeeRequest p = false ↔
        (strHasPre p "/_ah/" = true ∨ lastSegExt p ∈ doNotTeeExtsToPkgGoDev ∨
          p = "/-/bot" ∨ p = "/-/refresh")) ∧
    shouldTeeRequest "/github.com/foo/bar" = true := by
  constructor
  · intro p
    unfold shouldTeeRequest
    rw [filepathExt_eq_lastSegExt]
    by_cases h1 : strHasPre p "/_ah/" = true
    · simp [h1]
    · by_cases h2 : lastSegExt p ∈ doNotTeeExtsToPkgGoDev
      · simp [h1, h2, List.elem_iff]
      · by_cases h3 : p ∈ doNotTeeURLsToPkgGoDev
        · simp only [doNotTeeURLsToPkgGoDev, List.mem_cons, List.not_mem_nil,
            or_false] at h3
          simp [h1, h2, h3, List.elem_iff, doNotTeeURLsToPkgGoDev]
        · simp only [doNotTeeURLsToPkgGoDev, List.mem_cons, List.not_mem_nil,
            or_false, not_or] at h3
          simp [h1, h2, h3.1, h3.2, List.elem_iff, doNotTeeURLsToPkgGoDev]
  · decide

theorem strData_append (a b : String) : (a ++ b).data = a.data ++ b.data := by
  cases a
  cases b
  rfl

theorem strMk_data (a : String) : String.mk a.data = a := by
  cases a
  rfl

theorem splitOnAmp_append (a b : List Char) (h : '&' ∉ a) :
    splitOnAmp (a ++ '&' :: b) = a :: splitOnAmp b := by
  induction a with
  | nil => simp [splitOnAmp]
  | cons c a ih =>
    have hc : c ≠ '&' := fun hcc => h (hcc ▸ List.mem_cons_self c a)
    have ha : '&' ∉ a := fun hm => h (List.mem_cons_of_mem _ hm)
    simp only [List.cons_append, splitOnAmp, if_neg hc]
    rw [show a.append ('&' :: b) = a ++ '&' :: b from rfl, ih ha]

/-! ### Percent escaping never emits `&` -/

theorem char_toNat_lt (c : Char) : c.toNat < 1114112 := by
  have h := c.valid
  rcases h with h | ⟨h1, h2⟩
  · exact Nat.lt_trans h (by norm_num)
  · exact h2

theorem utf8Bytes_lt (c : Char) : ∀ b ∈ utf8Bytes c, b < 256 := by
  have hc := char_toNat_lt c
  intro b hb
  unfold utf8Bytes at hb
  split at hb
  · simp at hb
    omega
  · split at hb
    · simp at hb
      rcases hb with hb | hb <;> omega
    · split at hb
      · simp at hb
        rcases hb with hb | hb | hb <;> omega
      · simp at hb
        rcases hb with hb | hb | hb | hb <;> omega

theorem hexDigit_ne_amp : ∀ n < 16, hexDigit n ≠ '&' := by decide

theorem queryEscapeChar_no_amp (c : Char) : '&' ∉ queryEscapeChar c := by
  unfold queryEscapeChar
  by_cases h : isUnreserved c
  · simp only [h, if_true, List.mem_singleton]
    intro heq
    rw [← heq] at h
    exact absurd h (by decide)
  · by_cases hsp : c = ' '
    · subst hsp
      decide
    · simp only [h, hsp, Bool.false_eq_true, if_false]
      intro hmem
      rw [List.mem_flatten] at hmem
      obtain ⟨l, hl, hbl⟩ := hmem
      rw [List.mem_map] at hl
      obtain ⟨b, hb, rfl⟩ := hl
      have hb256 : b < 256 := utf8Bytes_lt c b hb
      simp only [List.mem_cons, List.not_mem_nil, or_false] at hbl
      rcases hbl with hbl | hbl | hbl
      · exact absurd hbl.symm (by decide)
      · exact hexDigit_ne_amp (b / 16) (by omega) hbl.symm
      · exact hexDigit_ne_amp (b % 16) (by omega) hbl.symm

theorem queryEscape_no_amp (s : String) : '&' ∉ (queryEscape s).data := by
  intro h
  change '&' ∈ (s.data.map queryEscapeChar).flatten at h
  rw [List.mem_flatten] at h
  obtain ⟨l, hl, hc⟩ := h
  rw [List.mem_map] at hl
  obtain ⟨c, _, rfl⟩ := hl
  exact queryEscapeChar_no_amp c hc

theorem utm_mem_encode_q (v : String) :
    "utm_source=godoc" ∈
      queryParams (valuesEncode (valuesSet [("utm_source", ["godoc"])] "q" v)) := by
  have hne : ("utm_source" : String) ≠ "q" := by decide
  have hk : keyLe "utm_source" "q" = false := by decide
  have e1 : queryEscape "q" = "q" := by decide
  have e2 : queryEscape "utm_source" ++ "=" ++ queryEscape "godoc" = "utm_source=godoc" := by
    decide
  have h1 : valuesEncode (valuesSet [("utm_source", ["godoc"])] "q" v) =
      ("q" ++ "=" ++ queryEscape v) ++ "&" ++ "utm_source=godoc" := by
    simp [valuesSet, hne, valuesEncode, sortByKey, insertSorted, hk, ampJoin, e1, e2]
  rw [h1]
  unfold queryParams
  have hamp : ("&" : String).data = ['&'] := rfl
  have hd : ((("q" ++ "=" ++ queryEscape v) ++ "&") ++ "utm_source=godoc").data =
      ("q" ++ "=" ++ queryEscape v).data ++ '&' :: ("utm_source=godoc" : String).data := by
    rw [strData_append, strData_append, hamp, List.append_assoc, List.singleton_append]
  rw [hd, splitOnAmp_append]
  · have hsp : splitOnAmp ("utm_source=godoc" : String).data =
        [("utm_source=godoc" : String).data] := by decide
    rw [hsp]
    simp [strMk_data]
  · rw [strData_append]
    intro hmem
    rcases List.mem_append.mp hmem with hm | hm
    · exact absurd hm (by decide)
    · exact queryEscape_no_amp v hm

/-- C3: `pkgGoDevURL` is total and in every branch returns a URL with
scheme `https`, host `pkg.go.dev`, and a query string containing the
attribution parameter `utm_source=godoc`. -/
theorem pkgGoDevURL_total (gu : URLRec) :
    (pkgGoDevURL gu).scheme = "https" ∧ (pkgGoDevURL gu).host = "pkg.go.dev" ∧
      "utm_source=godoc" ∈ queryParams (pkgGoDevURL gu).rawQuery := by
  rcases gu with ⟨h, p, rq, Q⟩
  simp only [pkgGoDevURL]
  by_cases hv : (strContains p "/vendor/" || strHasSuf p "/vendor") = true
  · rw [if_pos hv]
    exact ⟨rfl, rfl, by decide⟩
  · rw [if_neg hv]
    by_cases h1 : p = "/-/go"
    · rw [if_pos h1]
      exact ⟨rfl, rfl, by decide⟩
    · rw [if_neg h1]
      by_cases h2 : p = "/-/about"
      · rw [if_pos h2]
        exact ⟨rfl, rfl, by decide⟩
      · rw [if_neg h2]
        by_cases h3 : p = "/"
        · rw [if_pos h3]
          by_cases hq : valuesGet Q "q" ≠ ""
          · rw [if_pos hq]
            exact ⟨rfl, rfl, utm_mem_encode_q _⟩
          · rw [if_neg hq]
            exact ⟨rfl, rfl, by decide⟩
        · rw [if_neg h3]
          by_cases h4 : p = "/-/subrepo"
          · rw [if_pos h4]
            exact ⟨rfl, rfl, by decide⟩
          · rw [if_neg h4]
            by_cases hi : valuesHas Q "imports" = true
            · rw [if_pos hi]
              refine ⟨rfl, rfl, ?_⟩
              show "utm_source=godoc" ∈ queryParams
                (valuesEncode (valuesSet [("utm_source", ["godoc"])] "tab" "imports"))
              decide
            · rw [if_neg hi]
              by_cases hm : valuesHas Q "importers" = true
              · rw [if_pos hm]
                refine ⟨rfl, rfl, ?_⟩
                show "utm_source=godoc" ∈ queryParams
                  (valuesEncode (valuesSet [("utm_source", ["godoc"])] "tab" "importedby"))
                decide
              · rw [if_neg hm]
                refine ⟨rfl, rfl, ?_⟩
                show "utm_source=godoc" ∈ queryParams
                  (valuesEncode (valuesSet [("utm_source", ["godoc"])] "tab" "doc"))
                decide

/-- C4: the concrete legacy-URL mappings: the go special page maps to
`/std` with `tab=packages`; the about page to `/about`; `/?q=json` to
`/search` with `q=json`; a vendored path to the root with only the
attribution parameter; `?imports` to `tab=imports`; `?importers` to
`tab=importedby`; no query to `tab=doc`. -/
theorem pkgGoDevURL_concrete_cases :
    pkgGoDevURL { host := "godoc.org", path := "/-/go", rawQuery := "", query := [] } =
      { scheme := "https", host := "pkg.go.dev", path := "/std",
        rawQuery := "tab=packages&utm_source=godoc" } ∧
    pkgGoDevURL { host := "godoc.org", path := "/-/about", rawQuery := "", query := [] } =
      { scheme := "https", host := "pkg.go.dev", path := "/about",
        rawQuery := "utm_source=godoc" } ∧
    pkgGoDevURL { host := "godoc.org", path := "/", rawQuery := "q=json",
                  query := [("q", ["json"])] } =
      { scheme := "https", host := "pkg.go.dev", path := "/search",
        rawQuery := "q=json&utm_source=godoc" } ∧
    pkgGoDevURL { host := "godoc.org", path := "/some/pkg/vendor/x", rawQuery := "",
                  query := [] } =
      { scheme := "https", host := "pkg.go.dev", path := "/",
        rawQuery := "utm_source=godoc" } ∧
    pkgGoDevURL { host := "godoc.org", path := "/some/pkg", rawQuery := "imports",
                  query := [("imports", [""])] } =
      { scheme := "https", host := "pkg.go.dev", path := "/some/pkg",
        rawQuery := "tab=imports&utm_source=godoc" } ∧
    pkgGoDevURL { host := "godoc.org", path := "/some/pkg", rawQuery := "importers",
                  query := [("importers", [""])] } =
      { scheme := "https", host := "pkg.go.dev", path := "/some/pkg",
        rawQuery := "tab=importedby&utm_source=godoc" } ∧
    pkgGoDevURL { host := "godoc.org", path := "/some/pkg", rawQuery := "",
                  query := [] } =
      { scheme := "https", host := "pkg.go.dev", path := "/some/pkg",
        rawQuery := "tab=doc&utm_source=godoc" } := by
  decide

/-- C9: in the default branch, the destination query string is exactly
the tab parameter followed by `utm_source=godoc`, with the tab taken
from `imports` first, then `importers`, else `doc`; all other legacy
parameters are discarded, and the path is preserved. -/
theorem pkgGoDevURL_default_branch (gu : URLRec)
    (hv : (strContains gu.path "/vendor/" || strHasSuf gu.path "/vendor") = false)
    (h1 : gu.path ≠ "/-/go") (h2 : gu.path ≠ "/-/about") (h3 : gu.path ≠ "/")
    (h4 : gu.path ≠ "/-/subrepo") :
    (pkgGoDevURL gu).rawQuery =
      "tab=" ++
        (if valuesHas gu.query "imports" = true then "imports"
         else if valuesHas gu.query "importers" = true then "importedby"
         else "doc") ++ "&utm_source=godoc" ∧
    (pkgGoDevURL gu).path = gu.path := by
  rcases gu with ⟨h, p, rq, Q⟩
  simp only [pkgGoDevURL]
  have hv' : ¬ ((strContains p "/vendor/" || strHasSuf p "/vendor") = true) := by
    simp only [hv]
    decide
  rw [if_neg hv', if_neg h1, if_neg h2, if_neg h3, if_neg h4]
  by_cases hi : valuesHas Q "imports" = true
  · rw [if_pos hi, if_pos hi]
    refine ⟨?_, rfl⟩
    show valuesEncode (valuesSet [("utm_source", ["godoc"])] "tab" "imports") =
      "tab=" ++ "imports" ++ "&utm_source=godoc"
    decide
  · rw [if_neg hi, if_neg hi]
    by_cases hm : valuesHas Q "importers" = true
    · rw [if_pos hm, if_pos hm]
      refine ⟨?_, rfl⟩
      show valuesEncode (valuesSet [("utm_source", ["godoc"])] "tab" "importedby") =
        "tab=" ++ "importedby" ++ "&utm_source=godoc"
      decide
    · rw [if_neg hm, if_neg hm]
      refine ⟨?_, rfl⟩
      show valuesEncode (valuesSet [("utm_source", ["godoc"])] "tab" "doc") =
        "tab=" ++ "doc" ++ "&utm_source=godoc"
      decide

/-- Witness for `pkgGoDevURL_default_branch`: a package path carrying
both `imports` and `importers`; `imports` wins. -/
theorem pkgGoDevURL_default_branch_witness :
    (pkgGoDevURL ⟨"godoc.org", "/some/pkg", "imports&importers",
      [("imports", [""]), ("importers", [""])]⟩).rawQuery =
      "tab=" ++
        (if valuesHas [("imports", [""]), ("importers", [""])] "imports" = true then "imports"
         else if valuesHas [("imports", [""]), ("importers", [""])] "importers" = true then
           "importedby"
         else "doc") ++ "&utm_source=godoc" ∧
    (pkgGoDevURL ⟨"godoc.org", "/some/pkg", "imports&importers",
      [("imports", [""]), ("importers", [""])]⟩).path = "/some/pkg" :=
  pkgGoDevURL_default_branch
    ⟨"godoc.org", "/some/pkg", "imports&importers",
      [("imports", [""]), ("importers", [""])]⟩
    (by decide) (by decide) (by decide) (by decide) (by decide)

/-- Definitional unfolding of `shouldRedirectToPkgGoDev` with the
intermediate `redirectParam` binding substituted. -/
theorem shouldRedirect_unfold (r : Request) :
    shouldRedirectToPkgGoDev r =
      if strHasPre r.url.host "api" then false
      else if formValue r pkgGoDevRedirectParam == pkgGoDevRedirectOn ||
          formValue r pkgGoDevRedirectParam == pkgGoDevRedirectOff then
        formValue r pkgGoDevRedirectParam == pkgGoDevRedirectOn
      else
        match reqCookie r pkgGoDevRedirectCookie with
        | some v => v == pkgGoDevRedirectOn
        | none => false := rfl

/-- C2: on a non-API host the override query parameter decides
(`on` ⇒ redirect, `off` ⇒ no redirect, both regardless of any cookie);
with the parameter absent or any other value, the decision is exactly
"the consent cookie is present with value `on`". -/
theorem shouldRedirect_param_cookie (r : Request)
    (hapi : strHasPre r.url.host "api" = false) :
    (formValue r pkgGoDevRedirectParam = "on" → shouldRedirectToPkgGoDev r = true) ∧
    (formValue r pkgGoDevRedirectParam = "off" → shouldRedirectToPkgGoDev r = false) ∧
    (formValue r pkgGoDevRedirectParam ≠ "on" → formValue r pkgGoDevRedirectParam ≠ "off" →
      (shouldRedirectToPkgGoDev r = true ↔
        reqCookie r pkgGoDevRedirectCookie = some "on")) := by
  have hapi' : ¬ (strHasPre r.url.host "api" = true) := by
    rw [hapi]
    decide
  rw [shouldRedirect_unfold, if_neg hapi']
  refine ⟨?_, ?_, ?_⟩
  · intro h
    rw [h]
    rw [if_pos (by decide :
      (("on" == pkgGoDevRedirectOn || "on" == pkgGoDevRedirectOff) = true))]
    decide
  · intro h
    rw [h]
    rw [if_pos (by decide :
      (("off" == pkgGoDevRedirectOn || "off" == pkgGoDevRedirectOff) = true))]
    decide
  · intro h1 h2
    have hb : (formValue r pkgGoDevRedirectParam == pkgGoDevRedirectOn ||
        formValue r pkgGoDevRedirectParam == pkgGoDevRedirectOff) = false := by
      unfold pkgGoDevRedirectOn pkgGoDevRedirectOff
      simp [h1, h2]
    rw [hb]
    simp only [Bool.false_eq_true, if_false]
    rcases hc : reqCookie r pkgGoDevRedirectCookie with _ | v
    · simp
    · simp [pkgGoDevRedirectOn, beq_iff_eq]

/-- Witness for `shouldRedirect_param_cookie`: `redirect=on` with no
cookie redirects; `redirect=off` wins over an `on` cookie. -/
theorem shouldRedirect_param_cookie_witness :
    shouldRedirectToPkgGoDev
      ⟨⟨"godoc.org", "/some/pkg", "redirect=on", [("redirect", ["on"])]⟩,
        "godoc.org", []⟩ = true ∧
    shouldRedirectToPkgGoDev
      ⟨⟨"godoc.org", "/some/pkg", "redirect=off", [("redirect", ["off"])]⟩,
        "godoc.org", [("pkggodev-redirect", "on")]⟩ = false :=
  ⟨(shouldRedirect_param_cookie
      ⟨⟨"godoc.org", "/some/pkg", "redirect=on", [("redirect", ["on"])]⟩,
        "godoc.org", []⟩ (by decide)).1 (by decide),
   (shouldRedirect_param_cookie
      ⟨⟨"godoc.org", "/some/pkg", "redirect=off", [("redirect", ["off"])]⟩,
        "godoc.org", [("pkggodev-redirect", "on")]⟩ (by decide)).2.1 (by decide)⟩

/-- C7: a request whose parsed-URL host begins with `api` is never
redirected, whatever the parameter and cookie say. -/
theorem shouldRedirect_api_host (r : Request)
    (h : strHasPre r.url.host "api" = true) : shouldRedirectToPkgGoDev r = false := by
  unfold shouldRedirectToPkgGoDev
  rw [if_pos h]

/-- Witness for `shouldRedirect_api_host`: an `api` host with both the
`on` parameter and the `on` cookie still does not redirect. -/
theorem shouldRedirect_api_host_witness :
    shouldRedirectToPkgGoDev
      ⟨⟨"api.godoc.org", "/some/pkg", "redirect=on", [("redirect", ["on"])]⟩,
        "api.godoc.org", [("pkggodev-redirect", "on")]⟩ = false :=
  shouldRedirect_api_host
    ⟨⟨"api.godoc.org", "/some/pkg", "redirect=on", [("redirect", ["on"])]⟩,
      "api.godoc.org", [("pkggodev-redirect", "on")]⟩ (by decide)

/-- C5 (counterexample): a request carrying the `utm_source` marker
with a value other than `backtogodoc` (here `x`) and an `on` consent
cookie is redirected, not passed to the wrapped handler: presence of
the marker alone does not bypass redirection. -/
theorem handler_marker_presence_counterexample :
    valuesHas ([("utm_source", ["x"])] : Values) "utm_source" = true ∧
    (pkgGoDevRedirectStep ⟨⟨"godoc.org", "/some/pkg", "utm_source=x",
        [("utm_source", ["x"])]⟩, "godoc.org",
        [("pkggodev-redirect", "on")]⟩).action ≠ HandlerAction.passthrough := by
  decide

/-- C5 (amended): the bypass happens exactly for the marker value
`backtogodoc` — whenever the `utm_source` query parameter has that
value, the handler sets no cookie and passes the request to the
wrapped handler, whatever the cookie and override parameter say. -/
theorem handler_returning_bypass (r : Request)
    (h : formValue r "utm_source" = "backtogodoc") :
    pkgGoDevRedirectStep r = { cookies := [], action := HandlerAction.passthrough } := by
  unfold pkgGoDevRedirectStep userReturningFromPkgGoDev
  rw [h]
  rw [if_pos (by decide : (("backtogodoc" == "backtogodoc") = true))]

/-- Witness for `handler_returning_bypass`: the marker with value
`backtogodoc` bypasses even though the `on` cookie would redirect. -/
theorem handler_returning_bypass_witness :
    pkgGoDevRedirectStep ⟨⟨"godoc.org", "/some/pkg", "utm_source=backtogodoc",
        [("utm_source", ["backtogodoc"])]⟩, "godoc.org",
        [("pkggodev-redirect", "on")]⟩ =
      { cookies := [], action := HandlerAction.passthrough } :=
  handler_returning_bypass
    ⟨⟨"godoc.org", "/some/pkg", "utm_source=backtogodoc",
      [("utm_source", ["backtogodoc"])]⟩, "godoc.org",
      [("pkggodev-redirect", "on")]⟩ (by decide)

/-- Definitional unfolding of `pkgGoDevRedirectStep` with the
intermediate bindings substituted. -/
theorem step_unfold (r : Request) :
    pkgGoDevRedirectStep r =
      if userReturningFromPkgGoDev r then
        { cookies := [], action := HandlerAction.passthrough }
      else if !shouldRedirectToPkgGoDev r then
        { cookies :=
            (if formValue r pkgGoDevRedirectParam == pkgGoDevRedirectOn then
              [{ name := pkgGoDevRedirectCookie,
                 value := formValue r pkgGoDevRedirectParam, path := "/", maxAge := 0 }]
            else []) ++
            (if formValue r pkgGoDevRedirectParam == pkgGoDevRedirectOff then
              [{ name := pkgGoDevRedirectCookie, value := "", path := "/", maxAge := -1 }]
            else []),
          action := HandlerAction.passthrough }
      else
        { cookies :=
            (if formValue r pkgGoDevRedirectParam == pkgGoDevRedirectOn then
              [{ name := pkgGoDevRedirectCookie,
                 value := formValue r pkgGoDevRedirectParam, path := "/", maxAge := 0 }]
            else []) ++
            (if formValue r pkgGoDevRedirectParam == pkgGoDevRedirectOff then
              [{ name := pkgGoDevRedirectCookie, value := "", path := "/", maxAge := -1 }]
            else []),
          action := HandlerAction.redirectTo (pkgGoDevURL r.url) } := rfl

theorem step_cookies (r : Request) (hr : userReturningFromPkgGoDev r = false) :
    (pkgGoDevRedirectStep r).cookies =
      (if formValue r pkgGoDevRedirectParam == pkgGoDevRedirectOn then
        [{ name := pkgGoDevRedirectCookie, value := formValue r pkgGoDevRedirectParam,
           path := "/", maxAge := 0 }]
      else []) ++
      (if formValue r pkgGoDevRedirectParam == pkgGoDevRedirectOff then
        [{ name := pkgGoDevRedirectCookie, value := "", path := "/", maxAge := -1 }]
      else []) := by
  rw [step_unfold, if_neg (by rw [hr]; decide : ¬ (userReturningFromPkgGoDev r = true))]
  split <;> rfl

/-- C6: round-trip consent. A non-bypassed request with override `on`
sets exactly the consent cookie `on` with path `/` and no expiry, and
a follow-up request carrying just that cookie and no override
parameter redirects; a request with override `off` deletes the cookie
(empty value, `Max-Age -1`), and a follow-up request carrying no
cookie and no override parameter does not redirect. -/
theorem consent_roundtrip (r₁ r₂ s₁ s₂ : Request)
    (hr₁ : userReturningFromPkgGoDev r₁ = false)
    (hp₁ : formValue r₁ pkgGoDevRedirectParam = "on")
    (hr₂ : userReturningFromPkgGoDev r₂ = false)
    (hp₂ : formValue r₂ pkgGoDevRedirectParam = "off")
    (hs₁a : strHasPre s₁.url.host "api" = false)
    (hs₁p : formValue s₁ pkgGoDevRedirectParam = "")
    (hs₁c : s₁.cookies =
      (pkgGoDevRedirectStep r₁).cookies.map (fun c => (c.name, c.value)))
    (hs₂a : strHasPre s₂.url.host "api" = false)
    (hs₂p : formValue s₂ pkgGoDevRedirectParam = "")
    (hs₂c : s₂.cookies = []) :
    (pkgGoDevRedirectStep r₁).cookies =
      [{ name := pkgGoDevRedirectCookie, value := "on", path := "/", maxAge := 0 }] ∧
    shouldRedirectToPkgGoDev s₁ = true ∧
    (pkgGoDevRedirectStep r₂).cookies =
      [{ name := pkgGoDevRedirectCookie, value := "", path := "/", maxAge := -1 }] ∧
    shouldRedirectToPkgGoDev s₂ = false := by
  have hc₁ : (pkgGoDevRedirectStep r₁).cookies =
      [{ name := pkgGoDevRedirectCookie, value := "on", path := "/", maxAge := 0 }] := by
    rw [step_cookies r₁ hr₁, hp₁]
    decide
  have hc₂ : (pkgGoDevRedirectStep r₂).cookies =
      [{ name := pkgGoDevRedirectCookie, value := "", path := "/", maxAge := -1 }] := by
    rw [step_cookies r₂ hr₂, hp₂]
    decide
  have hk₁ : reqCookie s₁ pkgGoDevRedirectCookie = some "on" := by
    unfold reqCookie
    rw [hs₁c, hc₁]
    decide
  have hk₂ : reqCookie s₂ pkgGoDevRedirectCookie = none := by
    unfold reqCookie
    rw [hs₂c]
    decide
  have hred₁ : shouldRedirectToPkgGoDev s₁ = true := by
    rw [shouldRedirect_unfold, if_neg (by rw [hs₁a]; decide), hs₁p]
    rw [if_neg (by decide :
      ¬ ((("" == pkgGoDevRedirectOn || "" == pkgGoDevRedirectOff)) = true))]
    rw [hk₁]
    decide
  have hred₂ : shouldRedirectToPkgGoDev s₂ = false := by
    rw [shouldRedirect_unfold, if_neg (by rw [hs₂a]; decide), hs₂p]
    rw [if_neg (by decide :
      ¬ ((("" == pkgGoDevRedirectOn || "" == pkgGoDevRedirectOff)) = true))]
    rw [hk₂]
  exact ⟨hc₁, hred₁, hc₂, hred₂⟩

/-- Witness for `consent_roundtrip` at concrete requests. -/
theorem consent_roundtrip_witness :
    (pkgGoDevRedirectStep ⟨⟨"godoc.org", "/some/pkg", "redirect=on",
        [("redirect", ["on"])]⟩, "godoc.org", []⟩).cookies =
      [{ name := pkgGoDevRedirectCookie, value := "on", path := "/", maxAge := 0 }] ∧
    shouldRedirectToPkgGoDev ⟨⟨"godoc.org", "/some/pkg", "", []⟩, "godoc.org",
        [("pkggodev-redirect", "on")]⟩ = true ∧
    (pkgGoDevRedirectStep ⟨⟨"godoc.org", "/some/pkg", "redirect=off",
        [("redirect", ["off"])]⟩, "godoc.org", []⟩).cookies =
      [{ name := pkgGoDevRedirectCookie, value := "", path := "/", maxAge := -1 }] ∧
    shouldRedirectToPkgGoDev ⟨⟨"godoc.org", "/some/pkg", "", []⟩, "godoc.org", []⟩ =
      false :=
  consent_roundtrip
    ⟨⟨"godoc.org", "/some/pkg", "redirect=on", [("redirect", ["on"])]⟩, "godoc.org", []⟩
    ⟨⟨"godoc.org", "/some/pkg", "redirect=off", [("redirect", ["off"])]⟩, "godoc.org", []⟩
    ⟨⟨"godoc.org", "/some/pkg", "", []⟩, "godoc.org", [("pkggodev-redirect", "on")]⟩
    ⟨⟨"godoc.org", "/some/pkg", "", []⟩, "godoc.org", []⟩
    (by decide) (by decide) (by decide) (by decide) (by decide) (by decide) (by decide)
    (by decide) (by decide) (by decide)

/-- C8: the analytics event always carries scheme `https`, a host
taken from the parsed URL when non-empty and otherwise from the
transport-level `Host`, and a `UsePkgGoDev` flag equal to the pure
redirect predicate on the same request — also on requests carrying
the return-from-pkg.go.dev bypass marker. -/
theorem newGDDOEvent_spec (r : Request) (latency : Nat) (isRobot : Bool) (status : Int) :
    (newGDDOEvent r latency isRobot status).url.scheme = "https" ∧
    (newGDDOEvent r latency isRobot status).url.host =
      (if r.url.host = "" then r.host else r.url.host) ∧
    (newGDDOEvent r latency isRobot status).host =
      (if r.url.host = "" then r.host else r.url.host) ∧
    (newGDDOEvent r latency isRobot status).usePkgGoDev =
      shouldRedirectToPkgGoDev r := by
  by_cases h1 : r.url.host = ""
  · by_cases h2 : r.host = ""
    · simp [newGDDOEvent, h1, h2]
    · simp [newGDDOEvent, h1, h2]
  · simp [newGDDOEvent, h1]

/-- C10: the redirect decision never reads the transport-level `Host`
field — changing it leaves `shouldRedirectToPkgGoDev` unchanged —
while `newGDDOEvent` does fall back to it for the event host when the
parsed URL has no host. -/
theorem shouldRedirect_transport_host_independent :
    (∀ (r : Request) (h : String),
      shouldRedirectToPkgGoDev { r with host := h } = shouldRedirectToPkgGoDev r) ∧
    (∀ (r : Request) (latency : Nat) (isRobot : Bool) (status : Int),
      r.url.host = "" → r.host ≠ "" →
      (newGDDOEvent r latency isRobot status).host = r.host) := by
  constructor
  · intro r h
    rfl
  · intro r latency isRobot status h1 h2
    simp [newGDDOEvent, h1, h2]

/-- Witness for `shouldRedirect_transport_host_independent`: a Host
header starting with `api` neither enables nor disables redirection
when the parsed URL host is empty, yet the event host falls back to
that header. -/
theorem shouldRedirect_transport_host_independent_witness :
    shouldRedirectToPkgGoDev ⟨⟨"", "/some/pkg", "", []⟩, "api.godoc.org",
        [("pkggodev-redirect", "on")]⟩ =
      shouldRedirectToPkgGoDev ⟨⟨"", "/some/pkg", "", []⟩, "godoc.org",
        [("pkggodev-redirect", "on")]⟩ ∧
    (newGDDOEvent ⟨⟨"", "/some/pkg", "", []⟩, "api.godoc.org", []⟩ 0 false 200).host =
      "api.godoc.org" :=
  ⟨shouldRedirect_transport_host_independent.1
      ⟨⟨"", "/some/pkg", "", []⟩, "godoc.org", [("pkggodev-redirect", "on")]⟩
      "api.godoc.org",
   shouldRedirect_transport_host_independent.2
      ⟨⟨"", "/some/pkg", "", []⟩, "api.godoc.org", []⟩ 0 false 200 rfl (by decide)⟩
end Gddo
